import Mathlib

/-
Verification of the mm-sol transfer core against its specification.

Shallow embedding of the Python sources:
  src/mm_sol/utils.py          (get_node, get_proxy)
  src/mm_sol/transfer.py       (transfer_sol, transfer_sol_with_retries)
  src/mm_sol/converters.py     (sol_to_lamports, to_lamports)
  src/mm_sol/cli/cli_utils.py  (wait_confirmation)
  src/mm_sol/cli/cmd/transfer_cmd.py (_check_value_min_limit, _value_with_suffix,
                                      _transfer, _run_transfers)
  src/mm_sol/token_async.py    (get_token_balance)
  src/mm_sol/account.py        (check_private_key)

Python `random.choice` is modelled by an explicit choice oracle (a natural
number reduced modulo the list length); raising an exception is modelled by
`Except.error`.  Network I/O is modelled by outcome oracles passed as
arguments.  Strings are processed on their character lists so that every
definition evaluates by kernel reduction.
-/

namespace MmSol

/-- `Result` from mm_std: `Ok(value, data?)` / `Err(message, data?)`.  The
advisory `data` payload never affects control flow and is omitted. -/
inductive Result (α : Type) where
  | Ok : α → Result α
  | Err : String → Result α
  deriving DecidableEq, Repr

/-- `Result.is_ok()` from mm_std. -/
def Result.is_ok {α : Type} : Result α → Bool
  | .Ok _ => true
  | .Err _ => false

/-- The Python type `str | list[str]` used for `Nodes` and (inside an
`Optional`) for `Proxies`. -/
inductive StrOrList where
  | single : String → StrOrList
  | many : List String → StrOrList
  deriving DecidableEq, Repr

/-- `random.choice(l)`: uniform selection from a list; raises `IndexError`
on an empty list.  The oracle `pick` chooses the index (mod the length). -/
def random_choice (l : List String) (pick : Nat) : Except String String :=
  if h : 0 < l.length then .ok (l.get ⟨pick % l.length, Nat.mod_lt _ h⟩)
  else .error "IndexError"

/-- `DEFAULT_MAINNET_RPC` from mm_sol.rpc. -/
def DEFAULT_MAINNET_RPC : String := "https://api.mainnet-beta.solana.com"

/-- `utils.get_node`: `None` gives the default RPC, a string is returned
as-is, a list goes through `random.choice`. -/
def get_node (nodes : Option StrOrList) (pick : Nat) : Except String String :=
  match nodes with
  | none => .ok DEFAULT_MAINNET_RPC
  | some (.single s) => .ok s
  | some (.many l) => random_choice l pick

/-- Python truthiness test `not proxies` for `str | list[str] | None`:
`None`, the empty string and the empty list are falsy. -/
def falsy_proxies : Option StrOrList → Bool
  | none => true
  | some (.single s) => s == ""
  | some (.many l) => l.isEmpty

/-- `utils.get_proxy`: falsy input gives `None`, a string is returned
as-is, a non-empty list goes through `random.choice`. -/
def get_proxy (proxies : Option StrOrList) (pick : Nat) : Except String (Option String) :=
  if falsy_proxies proxies then .ok none
  else
    match proxies with
    | none => .ok none
    | some (.single s) => .ok (some s)
    | some (.many l) => (random_choice l pick).map some

/-- The members of a configured node or proxy set. -/
def members : Option StrOrList → List String
  | none => []
  | some (.single s) => [s]
  | some (.many l) => l

/-- The attempt loop of `transfer_sol_with_retries`.  Each iteration re-picks
a node (`get_node`) and a proxy (`get_proxy`) with fresh oracle values, runs
the underlying operation (`transfer_sol`, abstracted as `op`, indexed by the
attempt number to model network nondeterminism), returns on the first Ok and
otherwise keeps the last result.  `calls` records the (node, proxy) pair of
every operation invocation, in order. -/
def retries_loop (nodes proxies : Option StrOrList) (nodePick proxyPick : Nat → Nat)
    (op : Nat → String → Option String → Result String) :
    Nat → Nat → Result String → List (String × Option String) →
    Except String (List (String × Option String) × Result String)
  | 0, _, res, calls => .ok (calls, res)
  | fuel+1, i, _, calls =>
    match get_node nodes (nodePick i) with
    | .error e => .error e
    | .ok node =>
      match get_proxy proxies (proxyPick i) with
      | .error e => .error e
      | .ok proxy =>
        let r := op i node proxy
        if r.is_ok then .ok (calls ++ [(node, proxy)], r)
        else retries_loop nodes proxies nodePick proxyPick op fuel (i+1) r (calls ++ [(node, proxy)])

/-- `transfer.transfer_sol_with_retries`: starts from `Err "not started yet"`
and runs the loop for `retries` iterations. -/
def transfer_sol_with_retries (retries : Nat) (nodes proxies : Option StrOrList)
    (nodePick proxyPick : Nat → Nat)
    (op : Nat → String → Option String → Result String) :
    Except String (List (String × Option String) × Result String) :=
  retries_loop nodes proxies nodePick proxyPick op retries 0 (.Err "not started yet") []

/-- The (node, proxy) pairs picked for attempts `0 .. n-1`. -/
def attempt_trace (nf : Nat → String) (pf : Nat → Option String) (n : Nat) :
    List (String × Option String) :=
  (List.range n).map fun i => (nf i, pf i)

/-- The result of attempt `i` when the oracles resolve to `nf`/`pf`. -/
def attempt (op : Nat → String → Option String → Result String)
    (nf : Nat → String) (pf : Nat → Option String) (i : Nat) : Result String :=
  op i (nf i) (pf i)

/-! Shallow embedding of `converters.py`.  Python `decimal.Decimal` values
are exact (mantissa, decimal exponent) pairs, modelled by `Dec` below;
`int()` applied to such an exact value truncates toward zero. -/

/-- The characters of the unit suffix `"sol"`. -/
def sol_chars : List Char := ['s', 'o', 'l']

/-- Does the string start with the pattern?  (pattern first). -/
def starts_with_l : List Char → List Char → Bool
  | [], _ => true
  | _ :: _, [] => false
  | p :: ps, c :: cs => p == c && starts_with_l ps cs

/-- Python `str.endswith`. -/
def ends_with_l (s pat : List Char) : Bool := starts_with_l pat.reverse s.reverse

/-- Fuelled scanner for `str.replace(pat, "")`: removes every occurrence of
`pat`, scanning left to right.  Fuel is the string length, enough because
every step consumes at least one character. -/
def remove_all_go (pat : List Char) : Nat → List Char → List Char
  | _, [] => []
  | 0, s => s
  | fuel+1, c :: cs =>
    if starts_with_l pat (c :: cs) && !pat.isEmpty then
      remove_all_go pat fuel (List.drop pat.length (c :: cs))
    else c :: remove_all_go pat fuel cs

/-- Python `value.replace(pat, "")` for a non-empty pattern. -/
def remove_all (pat s : List Char) : List Char := remove_all_go pat s.length s

/-- ASCII whitespace as stripped by Python `str.strip()`. -/
def is_ws (c : Char) : Bool := c == ' ' || c == '\t' || c == '\n' || c == '\r'

/-- Python `str.strip()`. -/
def trim_ws (s : List Char) : List Char :=
  ((s.dropWhile is_ws).reverse.dropWhile is_ws).reverse

/-- `value.lower().replace(" ", "").strip()`, the normalization performed at
the top of the string branch of `to_lamports`. -/
def py_normalize (s : List Char) : List Char :=
  trim_ws ((s.map Char.toLower).filter fun c => !(c == ' '))

/-- Python `str.removesuffix`. -/
def strip_suffix_l (s pat : List Char) : List Char :=
  if ends_with_l s pat then s.take (s.length - pat.length) else s

/-- Are all characters ASCII digits?  (`str.isdigit` on ASCII input). -/
def all_digits (s : List Char) : Bool := s.all fun c => c.isDigit

/-- The natural number denoted by a digit string. -/
def digits_to_nat (s : List Char) : Nat := s.foldl (fun acc c => acc * 10 + (c.toNat - 48)) 0

/-- An exact Python `decimal.Decimal` value: `mant / 10 ^ scale`.  This is
the representation `Decimal` itself uses (sign/digits and a decimal
exponent), so arithmetic on it is exact. -/
structure Dec where
  mant : Int
  scale : Nat
  deriving DecidableEq, Repr

/-- The rational value denoted by a `Dec`. -/
def Dec.toRat (d : Dec) : ℚ := (d.mant : ℚ) / 10 ^ d.scale

/-- Parse a decimal literal the way `decimal.Decimal` parses plain
sign/digits/point literals (exponent forms are not used by this code's
inputs): an optional sign, digits with at most one decimal point, at least
one digit.  An unparsable literal raises `InvalidOperation` in Python,
modelled by `none`. -/
def parse_decimal (s : List Char) : Option Dec :=
  let sr : Int × List Char :=
    match s with
    | '-' :: r => (-1, r)
    | '+' :: r => (1, r)
    | _ => (1, s)
  match (sr.2).splitOn '.' with
  | [ip] =>
    if all_digits ip && !ip.isEmpty then some ⟨sr.1 * digits_to_nat ip, 0⟩ else none
  | [ip, fp] =>
    if all_digits ip && all_digits fp && !(ip.isEmpty && fp.isEmpty) then
      some ⟨sr.1 * digits_to_nat (ip ++ fp), fp.length⟩
    else none
  | _ => none

/-- Python `int(d * 10**k)` for an exact `Decimal` `d`: the product is the
exact rational `mant * 10^k / 10^scale` and `int()` truncates toward zero,
which on integers with a positive divisor is `Int.tdiv`. -/
def int_of_dec_mul_pow10 (d : Dec) (k : Nat) : Int :=
  (d.mant * 10 ^ k).tdiv (10 ^ d.scale)

/-- `converters.sol_to_lamports`: `int(sol * 10**9)`. -/
def sol_to_lamports (d : Dec) : Int := int_of_dec_mul_pow10 d 9

/-- The Python argument type `str | int | Decimal` of `to_lamports`. -/
inductive PyValue where
  | int : Int → PyValue
  | dec : Dec → PyValue
  | str : String → PyValue

/-- `converters.to_lamports`.  Raised exceptions (`ValueError`,
`decimal.InvalidOperation`) are modelled as `Except.error`.  The
`Decimal`-typed branch checks `value != value.to_integral_value()`, i.e.
whether `10^scale` divides the mantissa. -/
def to_lamports (value : PyValue) (decimals : Option Nat) : Except String Int :=
  match value with
  | .int n => .ok n
  | .dec d =>
    if (10 ^ d.scale : Int) ∣ d.mant then .ok (d.mant.tdiv (10 ^ d.scale))
    else .error "value must be integral number"
  | .str s =>
    let v := py_normalize s.data
    if ends_with_l v sol_chars then
      match parse_decimal (remove_all sol_chars v) with
      | some d => .ok (sol_to_lamports d)
      | none => .error "InvalidOperation"
    else if ends_with_l v ['t'] then
      match decimals with
      | none => .error "t without decimals"
      | some k =>
        match parse_decimal (strip_suffix_l v ['t']) with
        | some d => .ok (int_of_dec_mul_pow10 d k)
        | none => .error "InvalidOperation"
    else if all_digits v && !v.isEmpty then .ok (digits_to_nat v)
    else .error "wrong value"

/-! Shallow embedding of `cli_utils.wait_confirmation`. -/

/-- The outcome of one status query in `wait_confirmation`'s `try` block
(node/proxy selection, client creation and `get_transaction` together):
either the response reports an inclusion slot (`res.value and
`res.value.slot` truthy), or the query succeeded without one, or something
raised an exception (caught, logged, and the loop continues). -/
inductive TxStatusOutcome where
  | confirmed : TxStatusOutcome
  | notFound : TxStatusOutcome
  | exn : String → TxStatusOutcome
  deriving DecidableEq, Repr

/-- The polling loop body: iteration `i` queries; on a reported slot it
returns `true` immediately; otherwise (no slot or exception) it sleeps one
second, increments the counter, gives up with `false` once the counter
exceeds 30, and loops.  The pair returned is the result and the number of
queries performed. -/
def wait_confirmation_go (query : Nat → TxStatusOutcome) : Nat → Nat → Bool × Nat
  | _, 0 => (false, 0)
  | i, fuel+1 =>
    if query i = .confirmed then (true, 1)
    else
      let r := wait_confirmation_go query (i+1) fuel
      (r.1, r.2 + 1)

/-- `cli_utils.wait_confirmation`: the `while True` loop performs at most 31
queries — `count` is incremented after each query and the loop exits with
`false` once `count > 30`. -/
def wait_confirmation (query : Nat → TxStatusOutcome) : Bool × Nat :=
  wait_confirmation_go query 0 31

/-! Shallow embedding of `cli/cmd/transfer_cmd.py`.

The value-expression evaluator (`mm_sol.cli.calcs`, built on the external
`mm_web3` package) and the network layer (`mm_sol.retry`) are collaborators
of this module; their outcomes enter as explicit arguments: the evaluated
minimum limit, each route's value-resolution result, the submission result
and the confirmation-poll verdict.  Only `logger.info` lines are modelled —
`logger.debug` output is diagnostic.  The numeric rendering inside
`_value_with_suffix` (`lamports_to_sol` / `to_token`, which round through
binary floats) is abstracted as a rendering function `render`. -/

/-- A configured transfer route (`mm_web3.validators.Transfer`).  The field
`log_pfx` is the source's log prefix field. -/
structure TransferRoute where
  from_address : String
  to_address : String
  value : String
  log_pfx : String
  deriving DecidableEq, Repr

/-- Observable events of a transfer run: info-level log lines, transaction
submission (the retry call inside `_send_tx`), confirmation polling, and
the inter-route `asyncio.sleep`. -/
inductive Event where
  | logInfo : String → Event
  | sendTx : String → String → Int → Event
  | waitConf : String → Event
  | sleepDelay : Event
  deriving DecidableEq, Repr

/-- The per-route network outcomes feeding one `_transfer` call: the result
of `_calc_value`'s expression evaluation, the result of the submission
retry inside `_send_tx`, and the `wait_confirmation` verdict. -/
structure RouteOracle where
  value_res : Result Int
  send_res : Result String
  confirmed : Bool
  deriving DecidableEq, Repr

/-- `_value_with_suffix`: the rendered amount plus `"t"` for token
transfers and `"sol"` otherwise. -/
def value_with_suffix (is_token : Bool) (render : Int → String) (v : Int) : String :=
  render v ++ (if is_token then "t" else "sol")

/-- `_check_value_min_limit`: when a minimum limit is configured (`some l`,
the evaluated `value_min_limit` expression) and the value is below it, a
log line is emitted; the boolean result is `True` in every case.  Returns
(log lines, result). -/
def check_value_min_limit (limit : Option Int) (label : String) (v : Int)
    (rendered : String) : List String × Bool :=
  match limit with
  | some l =>
    if v < l then ([label ++ ": value<value_min_limit, value=" ++ rendered], true)
    else ([], true)
  | none => ([], true)

/-- `_transfer`: resolve the value (error ⇒ log and stop), run the
minimum-limit check (stop if it returns `False`), in emulate mode log and
stop, otherwise submit via `_send_tx` (submission error ⇒ log and stop) and
finish with the terminal status line, polling for confirmation unless
`no_confirmation` is set. -/
def transfer_route (is_token : Bool) (limit : Option Int) (render : Int → String)
    (emulate no_confirmation : Bool) (r : TransferRoute) (o : RouteOracle) : List Event :=
  match o.value_res with
  | .Err e => [.logInfo (r.log_pfx ++ ": calc value error, " ++ e)]
  | .Ok v =>
    let rendered := value_with_suffix is_token render v
    let check := check_value_min_limit limit r.log_pfx v rendered
    if check.2 = false then check.1.map Event.logInfo
    else if emulate then
      check.1.map Event.logInfo ++ [.logInfo (r.log_pfx ++ ": emulate, value=" ++ rendered)]
    else
      check.1.map Event.logInfo ++ [.sendTx r.from_address r.to_address v] ++
      match o.send_res with
      | .Err e => [.logInfo (r.log_pfx ++ ": tx error " ++ e)]
      | .Ok sig =>
        (if no_confirmation then [] else [.waitConf sig]) ++
        [.logInfo (r.log_pfx ++ ": sig=" ++ sig ++ ", value=" ++ rendered ++ ", status=" ++
          (if !no_confirmation && o.confirmed then "OK" else "UNKNOWN"))]

/-- The pacing block inserted after a non-final route when a delay
expression is configured: the evaluated delay (`dv`) is logged and, unless
emulating, the run suspends. -/
def delay_block (emulate : Bool) : Option String → List Event
  | some dv => [.logInfo ("delay " ++ dv ++ " seconds")] ++ (if emulate then [] else [.sleepDelay])
  | none => []

/-- `_run_transfers`: routes run strictly sequentially, with the delay
block after every route except the last. -/
def run_transfers (is_token : Bool) (limit : Option Int) (render : Int → String)
    (emulate no_confirmation : Bool) (delay : Option String) :
    List (TransferRoute × RouteOracle) → List Event
  | [] => []
  | (r, o) :: rest =>
    transfer_route is_token limit render emulate no_confirmation r o ++
    (if rest ≠ [] then delay_block emulate delay else []) ++
    run_transfers is_token limit render emulate no_confirmation delay rest

/-! Shallow embedding of `transfer.transfer_sol`,
`account.check_private_key` and `token_async.get_token_balance`. -/

/-- Side effects of `transfer_sol` after the key check: creating the RPC
client, then building, signing and sending the transaction for the
computed lamports amount. -/
inductive SolAction where
  | createClient : String → Option String → SolAction
  | sendTx : Int → SolAction
  deriving DecidableEq, Repr

/-- `account.check_private_key`: derive the keypair's public key and
compare it with the expected address.  Key derivation
(`solders.Keypair`, external) enters as the function `pubkey_of`. -/
def check_private_key (pubkey_of : String → String) (public_key private_key : String) : Bool :=
  pubkey_of private_key == public_key

/-- `transfer.transfer_sol`: the keypair is derived and checked against
`from_address`; on mismatch the function returns
`Err("invalid_private_key")` before any client exists.  Otherwise the
client is created, `lamports = int(value * 10**9)` is computed, and the
transaction is built and sent; the network outcome of the `try` block
(`Ok(signature)` or the caught exception) enters as `net`.  Returns the
performed actions and the result. -/
def transfer_sol (pubkey_of : String → String) (net : Result String)
    (node from_address private_key to_address : String) (value : Dec)
    (proxy : Option String) : List SolAction × Result String :=
  if !(check_private_key pubkey_of from_address private_key) then
    ([], .Err "invalid_private_key")
  else
    ([.createClient node proxy, .sendTx (sol_to_lamports value)], net)

/-- Python's substring test `pat in s`. -/
def occurs_l (pat : List Char) : List Char → Bool
  | [] => pat.isEmpty
  | c :: cs => starts_with_l pat (c :: cs) || occurs_l pat cs

/-- `pat in s` on strings. -/
def str_contains (s pat : String) : Bool := occurs_l pat.data s.data

/-- The marker the Solana RPC uses for a missing associated token
account. -/
def could_not_find : String := "could not find account"

/-- Outcome of the RPC call inside `get_token_balance`: a normal response
carrying the amount, an `InvalidParamsMessage` payload (returned, not
raised), an `RPCException`, an `httpx.HTTPStatusError`, a
`SolanaRpcException` (with its `error_msg`), or any other exception. -/
inductive TokenBalanceRpc where
  | balance : Int → TokenBalanceRpc
  | invalidParams : String → TokenBalanceRpc
  | rpcExc : String → TokenBalanceRpc
  | httpStatusError : String → TokenBalanceRpc
  | solanaRpcExc : String → TokenBalanceRpc
  | otherExc : String → TokenBalanceRpc
  deriving DecidableEq, Repr

/-- `token_async.get_token_balance` as a function of the RPC outcome.  An
`InvalidParamsMessage` whose message lacks the marker falls through to
`int(res.value.amount)`, which raises `AttributeError` and is caught by the
final generic handler (`err="exception"`).  Every branch returns a
`DataResult` (modelled by `Result`); nothing escapes. -/
def get_token_balance (rpc : TokenBalanceRpc) : Result Int :=
  match rpc with
  | .balance n => .Ok n
  | .invalidParams msg =>
    if str_contains msg could_not_find then .Ok 0 else .Err "exception"
  | .rpcExc msg =>
    if str_contains msg could_not_find then .Ok 0 else .Err "error"
  | .httpStatusError msg => .Err ("http error: " ++ msg)
  | .solanaRpcExc msg => .Err msg
  | .otherExc _ => .Err "exception"

section RetryLemmas

variable (nodes proxies : Option StrOrList) (nodePick proxyPick : Nat → Nat)
variable (op : Nat → String → Option String → Result String)
variable (nf : Nat → String) (pf : Nat → Option String)
variable (hn : ∀ i, get_node nodes (nodePick i) = .ok (nf i))
variable (hp : ∀ i, get_proxy proxies (proxyPick i) = .ok (pf i))

include hn hp

/-- One unfolding step of the loop when the current attempt fails. -/
lemma retries_loop_step_err (f i : Nat) (res : Result String)
    (calls : List (String × Option String))
    (hbad : (attempt op nf pf i).is_ok = false) :
    retries_loop nodes proxies nodePick proxyPick op (f+1) i res calls =
      retries_loop nodes proxies nodePick proxyPick op f (i+1) (attempt op nf pf i)
        (calls ++ [(nf i, pf i)]) := by
  simp only [retries_loop, hn i, hp i]
  simp only [attempt] at hbad
  simp [hbad]
  rfl

/-- One unfolding step of the loop when the current attempt succeeds. -/
lemma retries_loop_step_ok (f i : Nat) (res : Result String)
    (calls : List (String × Option String))
    (hok : (attempt op nf pf i).is_ok = true) :
    retries_loop nodes proxies nodePick proxyPick op (f+1) i res calls =
      .ok (calls ++ [(nf i, pf i)], attempt op nf pf i) := by
  simp only [retries_loop, hn i, hp i]
  simp only [attempt] at hok ⊢
  simp [hok]

/-- If every attempt in the remaining budget fails, the loop makes exactly
`f+1` calls and returns the result of the last attempt. -/
lemma retries_loop_all_err :
    ∀ (f i : Nat) (res : Result String) (calls : List (String × Option String)),
    (∀ k, k < f + 1 → (attempt op nf pf (i+k)).is_ok = false) →
    retries_loop nodes proxies nodePick proxyPick op (f+1) i res calls =
      .ok (calls ++ (List.range (f+1)).map (fun k => (nf (i+k), pf (i+k))),
           attempt op nf pf (i+f)) := by
  intro f
  induction f with
  | zero =>
    intro i res calls hbad
    rw [retries_loop_step_err nodes proxies nodePick proxyPick op nf pf hn hp 0 i res calls
      (by simpa using hbad 0 (by omega))]
    simp [retries_loop, List.range_succ]
  | succ f ih =>
    intro i res calls hbad
    rw [retries_loop_step_err nodes proxies nodePick proxyPick op nf pf hn hp (f+1) i res calls
      (by simpa using hbad 0 (by omega))]
    rw [ih (i+1) (attempt op nf pf i) (calls ++ [(nf i, pf i)])
      (fun k hk => by
        have := hbad (k+1) (by omega)
        simpa [Nat.add_assoc, Nat.add_comm 1 k] using this)]
    have harith : i + 1 + f = i + (f + 1) := by omega
    have hfun : ∀ k : Nat, i + 1 + k = i + (k + 1) := fun k => by omega
    rw [harith, List.append_assoc]
    congr 2
    conv_rhs => rw [List.range_succ_eq_map]
    simp only [List.map_cons, List.map_map, Function.comp, hfun, Nat.succ_eq_add_one,
      Nat.add_zero, List.singleton_append]
    have hfe : (fun k => (nf (i + (k + 1)), pf (i + (k + 1)))) =
        ((fun k => (nf (i + k), pf (i + k))) ∘ Nat.succ) := by
      funext k
      simp [Function.comp, Nat.succ_eq_add_one]
    rw [hfe]

/-- If the first successful attempt is attempt `i+j`, the loop makes exactly
`j+1` calls and returns that success. -/
lemma retries_loop_first_ok :
    ∀ (j f i : Nat) (res : Result String) (calls : List (String × Option String)),
    j < f →
    (attempt op nf pf (i+j)).is_ok = true →
    (∀ k, k < j → (attempt op nf pf (i+k)).is_ok = false) →
    retries_loop nodes proxies nodePick proxyPick op f i res calls =
      .ok (calls ++ (List.range (j+1)).map (fun k => (nf (i+k), pf (i+k))),
           attempt op nf pf (i+j)) := by
  intro j
  induction j with
  | zero =>
    intro f i res calls hjf hok _
    obtain ⟨f', rfl⟩ : ∃ f', f = f' + 1 := ⟨f - 1, by omega⟩
    rw [retries_loop_step_ok nodes proxies nodePick proxyPick op nf pf hn hp f' i res calls
      (by simpa using hok)]
    simp [List.range_succ]
  | succ j ih =>
    intro f i res calls hjf hok hbad
    obtain ⟨f', rfl⟩ : ∃ f', f = f' + 1 := ⟨f - 1, by omega⟩
    rw [retries_loop_step_err nodes proxies nodePick proxyPick op nf pf hn hp f' i res calls
      (by simpa using hbad 0 (by omega))]
    rw [ih f' (i+1) (attempt op nf pf i) (calls ++ [(nf i, pf i)]) (by omega)
      (by simpa [Nat.add_assoc, Nat.add_comm 1 j] using hok)
      (fun k hk => by
        have := hbad (k+1) (by omega)
        simpa [Nat.add_assoc, Nat.add_comm 1 k] using this)]
    have harith : i + 1 + j = i + (j + 1) := by omega
    have hfun : ∀ k : Nat, i + 1 + k = i + (k + 1) := fun k => by omega
    rw [harith, List.append_assoc]
    congr 2
    conv_rhs => rw [List.range_succ_eq_map]
    simp only [List.map_cons, List.map_map, Function.comp, hfun, Nat.succ_eq_add_one,
      Nat.add_zero, List.singleton_append]
    have hfe : (fun k => (nf (i + (k + 1)), pf (i + (k + 1)))) =
        ((fun k => (nf (i + k), pf (i + k))) ∘ Nat.succ) := by
      funext k
      simp [Function.comp, Nat.succ_eq_add_one]
    rw [hfe]

end RetryLemmas

/-- C1: for every `retries ≥ 1`, `transfer_sol_with_retries` invokes the
underlying operation at most `retries` times, re-picking a node and proxy
independently on each iteration (the call trace at attempt `i` uses the
`i`-th oracle picks), returns the first Ok result immediately with no
further attempts, and if every attempt fails returns the Err of the last
attempt. -/
theorem transfer_sol_with_retries_spec
    (retries : Nat) (nodes proxies : Option StrOrList) (nodePick proxyPick : Nat → Nat)
    (op : Nat → String → Option String → Result String)
    (nf : Nat → String) (pf : Nat → Option String)
    (hn : ∀ i, get_node nodes (nodePick i) = .ok (nf i))
    (hp : ∀ i, get_proxy proxies (proxyPick i) = .ok (pf i))
    (hr : 1 ≤ retries) :
    (∀ j, j < retries → (attempt op nf pf j).is_ok = true →
      (∀ k, k < j → (attempt op nf pf k).is_ok = false) →
      transfer_sol_with_retries retries nodes proxies nodePick proxyPick op =
        .ok (attempt_trace nf pf (j+1), attempt op nf pf j)) ∧
    ((∀ k, k < retries → (attempt op nf pf k).is_ok = false) →
      transfer_sol_with_retries retries nodes proxies nodePick proxyPick op =
        .ok (attempt_trace nf pf retries, attempt op nf pf (retries - 1))) := by
  constructor
  · intro j hj hok hbad
    unfold transfer_sol_with_retries
    rw [retries_loop_first_ok nodes proxies nodePick proxyPick op nf pf hn hp j retries 0
      (.Err "not started yet") [] hj (by simpa using hok) (fun k hk => by simpa using hbad k hk)]
    simp [attempt_trace]
  · intro hbad
    obtain ⟨f, rfl⟩ : ∃ f, retries = f + 1 := ⟨retries - 1, by omega⟩
    unfold transfer_sol_with_retries
    rw [retries_loop_all_err nodes proxies nodePick proxyPick op nf pf hn hp f 0
      (.Err "not started yet") [] (fun k hk => by simpa using hbad k hk)]
    simp [attempt_trace]

/-- Witness for C1: two configured nodes via a single-string node set, no
proxies, three retries, success on the second attempt. -/
theorem transfer_sol_with_retries_spec_witness :
    transfer_sol_with_retries 3 (some (.single "n")) none (fun i => i) (fun i => i)
      (fun i _ _ => if i = 1 then .Ok "sig" else .Err "boom") =
      .ok ([("n", none), ("n", none)], .Ok "sig") := by
  have h := (transfer_sol_with_retries_spec 3 (some (.single "n")) none (fun i => i) (fun i => i)
    (fun i _ _ => if i = 1 then .Ok "sig" else .Err "boom")
    (fun _ => "n") (fun _ => none) (fun _ => rfl) (fun _ => rfl) (by omega)).1
    1 (by omega) (by decide) (by decide)
  simpa [attempt_trace, attempt, List.range_succ] using h

/-- C6: for a non-empty node set `get_node` never raises and returns a
member of the set; `get_proxy` never raises and returns a member of the
proxy set or `none`, and returns `none` whenever the proxy set is empty. -/
theorem get_node_get_proxy_members
    (nodes proxies : Option StrOrList) (np pp : Nat)
    (hn : members nodes ≠ []) :
    (∃ s, get_node nodes np = .ok s ∧ s ∈ members nodes) ∧
    (∃ r, get_proxy proxies pp = .ok r ∧
      (r = none ∨ ∃ s, r = some s ∧ s ∈ members proxies)) ∧
    (members proxies = [] → get_proxy proxies pp = .ok none) := by
  refine ⟨?_, ?_, ?_⟩
  · match nodes with
    | none => simp [members] at hn
    | some (.single s) => exact ⟨s, rfl, by simp [members]⟩
    | some (.many l) =>
      have hl : 0 < l.length := by
        simp [members] at hn
        exact List.length_pos.mpr hn
      refine ⟨l.get ⟨np % l.length, Nat.mod_lt _ hl⟩, ?_, ?_⟩
      · simp [get_node, random_choice, hl]
      · simp [members]
  · match proxies with
    | none => exact ⟨none, rfl, Or.inl rfl⟩
    | some (.single s) =>
      by_cases hs : s = ""
      · exact ⟨none, by simp [get_proxy, falsy_proxies, hs], Or.inl rfl⟩
      · refine ⟨some s, by simp [get_proxy, falsy_proxies, hs], Or.inr ⟨s, rfl, by simp [members]⟩⟩
    | some (.many l) =>
      match l with
      | [] => exact ⟨none, by simp [get_proxy, falsy_proxies], Or.inl rfl⟩
      | x :: xs =>
        have hl : 0 < (x :: xs).length := by simp
        refine ⟨some ((x :: xs).get ⟨pp % (x :: xs).length, Nat.mod_lt _ hl⟩), ?_, ?_⟩
        · simp [get_proxy, falsy_proxies, random_choice, hl, Except.map]
        · exact Or.inr ⟨_, rfl, by simp [members]⟩
  · intro hemp
    match proxies with
    | none => rfl
    | some (.single s) => simp [members] at hemp
    | some (.many l) =>
      simp [members] at hemp
      simp [get_proxy, falsy_proxies, hemp]

/-- Witness for C6 at a concrete two-node set and one-proxy set. -/
theorem get_node_get_proxy_members_witness :
    (∃ s, get_node (some (.many ["n1", "n2"])) 5 = .ok s ∧
        s ∈ members (some (.many ["n1", "n2"]))) ∧
    (∃ r, get_proxy (some (.many ["p1"])) 0 = .ok r ∧
      (r = none ∨ ∃ s, r = some s ∧ s ∈ members (some (.many ["p1"])))) ∧
    (members (some (.many ["p1"])) = [] → get_proxy (some (.many ["p1"])) 0 = .ok none) :=
  get_node_get_proxy_members (some (.many ["n1", "n2"])) (some (.many ["p1"])) 5 0 (by decide)

/-- Truncating division by an exact divisor is exact division, as a
rational identity. -/
lemma tdiv_exact_cast (a b : Int) (hb : b ≠ 0) (h : b ∣ a) :
    ((a.tdiv b : Int) : ℚ) = (a : ℚ) / (b : ℚ) := by
  obtain ⟨c, rfl⟩ := h
  rw [Int.mul_tdiv_cancel_left _ hb]
  have hbq : (b : ℚ) ≠ 0 := Int.cast_ne_zero.mpr hb
  field_simp

/-- C3 counterexample: `to_lamports("0.0000000005sol")` returns `Ok 0`
although the exact value of the literal times `10^9` is `1/2`: the
conversion silently truncates a non-integral fractional literal instead of
rejecting it, and the produced amount differs from the exact product. -/
theorem to_lamports_truncation_counterexample :
    to_lamports (.str "0.0000000005sol") none = .ok 0 ∧
    parse_decimal (String.data "0.0000000005") = some ⟨5, 10⟩ ∧
    ¬ ((10 : Int) ^ (10 : Nat) ∣ 5 * 10 ^ 9) ∧
    Dec.toRat ⟨5, 10⟩ * 10 ^ 9 ≠ (0 : ℚ) := by
  refine ⟨by rfl, by decide, by decide, ?_⟩
  rw [Dec.toRat]
  norm_num

/-- C3 amended: with the `sol` suffix the conversion computes
`int(d * 10^9)`, truncation toward zero of the exact product; whenever the
exact product `d * 10^9` is an integral lamport amount the conversion is
exact, and a non-integral product is truncated rather than rejected. -/
theorem to_lamports_sol_exact (s : String) (d : Dec) (decimals : Option Nat)
    (h1 : ends_with_l (py_normalize s.data) sol_chars = true)
    (h2 : parse_decimal (remove_all sol_chars (py_normalize s.data)) = some d) :
    to_lamports (.str s) decimals = .ok ((d.mant * 10 ^ 9).tdiv (10 ^ d.scale)) ∧
    ((10 ^ d.scale : Int) ∣ d.mant * 10 ^ 9 →
      ∀ n : Int, to_lamports (.str s) decimals = .ok n →
        (n : ℚ) = d.toRat * 10 ^ 9) := by
  have hbase : to_lamports (.str s) decimals = .ok ((d.mant * 10 ^ 9).tdiv (10 ^ d.scale)) := by
    simp only [to_lamports, h1, h2, sol_to_lamports, int_of_dec_mul_pow10]
    simp
  refine ⟨hbase, fun hdvd n hn => ?_⟩
  rw [hbase] at hn
  injection hn with hn
  subst hn
  rw [tdiv_exact_cast _ _ (by positivity) hdvd, Dec.toRat]
  push_cast
  ring

/-- Witness for C3 (amended): `"1.5sol"` converts exactly to
`1_500_000_000` lamports, matching `1.5 * 10^9` as a rational. -/
theorem to_lamports_sol_exact_witness :
    to_lamports (.str "1.5sol") none = .ok 1500000000 ∧
    ((1500000000 : Int) : ℚ) = Dec.toRat ⟨15, 1⟩ * 10 ^ 9 := by
  have h := to_lamports_sol_exact "1.5sol" ⟨15, 1⟩ none (by decide) (by decide)
  have hval : ((⟨15, 1⟩ : Dec).mant * 10 ^ 9).tdiv (10 ^ (⟨15, 1⟩ : Dec).scale) = 1500000000 := by
    decide
  have hbase : to_lamports (.str "1.5sol") none = .ok 1500000000 := by
    rw [h.1, hval]
  exact ⟨hbase, h.2 (by decide) 1500000000 hbase⟩

/-- If no query in the remaining budget reports a slot, the loop exhausts
the budget and returns `false`. -/
lemma wait_confirmation_go_none (query : Nat → TxStatusOutcome) :
    ∀ (fuel i : Nat), (∀ k, k < fuel → query (i+k) ≠ .confirmed) →
    wait_confirmation_go query i fuel = (false, fuel) := by
  intro fuel
  induction fuel with
  | zero => intro i _; rfl
  | succ f ih =>
    intro i h
    have h0 : ¬ query i = .confirmed := by simpa using h 0 (by omega)
    simp only [wait_confirmation_go, if_neg h0]
    rw [ih (i+1) (fun k hk => by
      have := h (k+1) (by omega)
      simpa [Nat.add_assoc, Nat.add_comm 1 k] using this)]

/-- If the first query reporting a slot is query `i+j` and the budget
covers it, the loop returns `true` after exactly `j+1` queries. -/
lemma wait_confirmation_go_first (query : Nat → TxStatusOutcome) :
    ∀ (j fuel i : Nat), j < fuel → query (i+j) = .confirmed →
    (∀ k, k < j → query (i+k) ≠ .confirmed) →
    wait_confirmation_go query i fuel = (true, j+1) := by
  intro j
  induction j with
  | zero =>
    intro fuel i hj hc _
    obtain ⟨f, rfl⟩ : ∃ f, fuel = f + 1 := ⟨fuel - 1, by omega⟩
    simp only [wait_confirmation_go, if_pos (by simpa using hc)]
  | succ j ih =>
    intro fuel i hj hc hk
    obtain ⟨f, rfl⟩ : ∃ f, fuel = f + 1 := ⟨fuel - 1, by omega⟩
    have h0 : ¬ query i = .confirmed := by simpa using hk 0 (by omega)
    simp only [wait_confirmation_go, if_neg h0]
    rw [ih f (i+1) (by omega)
      (by simpa [Nat.add_assoc, Nat.add_comm 1 j] using hc)
      (fun k hklt => by
        have := hk (k+1) (by omega)
        simpa [Nat.add_assoc, Nat.add_comm 1 k] using this)]

/-- C5: `wait_confirmation` always terminates within its 31-iteration
budget; it returns `true` after exactly `j+1` queries when query `j` is the
first to report a slot (the remaining budget is not consumed), query
exceptions merely continue the loop (they are just non-`confirmed`
outcomes), and if no query in the budget reports a slot it returns `false`
after all 31 queries. -/
theorem wait_confirmation_spec (query : Nat → TxStatusOutcome) :
    (∀ j, j < 31 → query j = .confirmed → (∀ k, k < j → query k ≠ .confirmed) →
      wait_confirmation query = (true, j + 1)) ∧
    ((∀ k, k < 31 → query k ≠ .confirmed) → wait_confirmation query = (false, 31)) := by
  constructor
  · intro j hj hc hk
    unfold wait_confirmation
    rw [wait_confirmation_go_first query j 31 0 hj (by simpa using hc)
      (fun k hklt => by simpa using hk k hklt)]
  · intro h
    unfold wait_confirmation
    rw [wait_confirmation_go_none query 31 0 (fun k hk => by simpa using h k hk)]

/-- Witness for C5: a query that errors four times and reports a slot on
the fifth attempt returns `true` after exactly five queries. -/
theorem wait_confirmation_spec_witness :
    wait_confirmation (fun j => if j = 4 then .confirmed else .exn "boom") = (true, 5) :=
  (wait_confirmation_spec (fun j => if j = 4 then .confirmed else .exn "boom")).1
    4 (by omega) (by decide) (by decide)

/-- The minimum-limit check returns `True` on every input. -/
lemma check_value_min_limit_true (limit : Option Int) (label : String) (v : Int)
    (rendered : String) : (check_value_min_limit limit label v rendered).2 = true := by
  cases limit with
  | none => rfl
  | some l => by_cases h : v < l <;> simp [check_value_min_limit, h]

/-- `_transfer` never performs the inter-route sleep. -/
lemma sleep_not_mem_transfer_route (is_token : Bool) (limit : Option Int)
    (render : Int → String) (emulate no_confirmation : Bool)
    (r : TransferRoute) (o : RouteOracle) :
    Event.sleepDelay ∉ transfer_route is_token limit render emulate no_confirmation r o := by
  cases hv : o.value_res with
  | Err e => simp [transfer_route, hv]
  | Ok v =>
    cases hs : o.send_res with
    | Ok sig =>
      cases emulate <;> cases no_confirmation <;>
        simp [transfer_route, hv, hs, check_value_min_limit_true]
    | Err e =>
      cases emulate <;>
        simp [transfer_route, hv, hs, check_value_min_limit_true]

/-- When the delay is configured and not emulating, the whole run contains
one sleep per route except the last. -/
lemma count_sleep_run_transfers (is_token : Bool) (limit : Option Int)
    (render : Int → String) (no_confirmation : Bool) (dv : String) :
    ∀ routes : List (TransferRoute × RouteOracle),
    (run_transfers is_token limit render false no_confirmation (some dv) routes).count
      Event.sleepDelay = routes.length - 1 := by
  intro routes
  induction routes with
  | nil => simp [run_transfers]
  | cons x rest ih =>
    obtain ⟨r, o⟩ := x
    cases rest with
    | nil =>
      simp [run_transfers, List.count_eq_zero]
      exact sleep_not_mem_transfer_route is_token limit render false no_confirmation r o
    | cons y ys =>
      rw [run_transfers]
      rw [List.count_append, List.count_append, ih]
      rw [List.count_eq_zero.mpr
        (sleep_not_mem_transfer_route is_token limit render false no_confirmation r o)]
      simp [delay_block, List.count_cons]
      omega

/-- Splitting a batch: the routes before a non-empty tail each contribute
their trace plus a delay block, and the tail runs as its own batch. -/
lemma run_transfers_append (is_token : Bool) (limit : Option Int)
    (render : Int → String) (emulate no_confirmation : Bool) (delay : Option String) :
    ∀ (xs ys : List (TransferRoute × RouteOracle)), ys ≠ [] →
    run_transfers is_token limit render emulate no_confirmation delay (xs ++ ys) =
      (xs.map fun p =>
        transfer_route is_token limit render emulate no_confirmation p.1 p.2 ++
          delay_block emulate delay).join ++
      run_transfers is_token limit render emulate no_confirmation delay ys := by
  intro xs ys hys
  induction xs with
  | nil => simp
  | cons x xs ih =>
    obtain ⟨r, o⟩ := x
    rw [List.cons_append, run_transfers, ih]
    have hne : xs ++ ys ≠ [] := by
      cases xs <;> simp_all
    simp [hne]

/-- C2: the minimum-limit check is advisory: it returns `True` for every
input; when the resolved value is below the configured limit it emits
exactly one log line; and a below-limit route still reaches the
transaction-submission step (`_send_tx` runs). -/
theorem check_value_min_limit_advisory
    (is_token : Bool) (render : Int → String) (no_confirmation : Bool)
    (r : TransferRoute) (o : RouteOracle) (v l : Int)
    (hval : o.value_res = .Ok v) (hbelow : v < l) :
    (∀ (lim : Option Int) (lab : String) (x : Int) (rnd : String),
      (check_value_min_limit lim lab x rnd).2 = true) ∧
    (check_value_min_limit (some l) r.log_pfx v (value_with_suffix is_token render v)).1 =
      [r.log_pfx ++ ": value<value_min_limit, value=" ++ value_with_suffix is_token render v] ∧
    Event.sendTx r.from_address r.to_address v ∈
      transfer_route is_token (some l) render false no_confirmation r o := by
  refine ⟨check_value_min_limit_true, ?_, ?_⟩
  · simp [check_value_min_limit, hbelow]
  · cases hs : o.send_res <;>
      simp [transfer_route, hval, hs, check_value_min_limit_true]

/-- Witness for C2: a route resolving to 5 lamports with a limit of 10
emits the advisory log line and still submits. -/
theorem check_value_min_limit_advisory_witness :
    (∀ (lim : Option Int) (lab : String) (x : Int) (rnd : String),
      (check_value_min_limit lim lab x rnd).2 = true) ∧
    (check_value_min_limit (some 10) "w1" 5 (value_with_suffix false (fun _ => "0.0") 5)).1 =
      ["w1" ++ ": value<value_min_limit, value=" ++ value_with_suffix false (fun _ => "0.0") 5] ∧
    Event.sendTx "A" "B" 5 ∈
      transfer_route false (some 10) (fun _ => "0.0") false false
        ⟨"A", "B", "1sol", "w1"⟩ ⟨.Ok 5, .Ok "sig", true⟩ :=
  check_value_min_limit_advisory false (fun _ => "0.0") false
    ⟨"A", "B", "1sol", "w1"⟩ ⟨.Ok 5, .Ok "sig", true⟩ 5 10 rfl (by omega)

/-- C4: a route whose value resolution fails contributes exactly one error
log line — in particular `_send_tx` is never invoked for it — and the
routes after it still run as their own batch. -/
theorem route_error_no_submit_batch_continues
    (is_token : Bool) (limit : Option Int) (render : Int → String)
    (emulate no_confirmation : Bool) (delay : Option String)
    (r : TransferRoute) (o : RouteOracle) (e : String)
    (herr : o.value_res = .Err e) :
    transfer_route is_token limit render emulate no_confirmation r o =
      [.logInfo (r.log_pfx ++ ": calc value error, " ++ e)] ∧
    (∀ a b v, Event.sendTx a b v ∉
      transfer_route is_token limit render emulate no_confirmation r o) ∧
    (∀ pre post, post ≠ [] →
      run_transfers is_token limit render emulate no_confirmation delay (pre ++ (r, o) :: post) =
        (pre.map fun p =>
          transfer_route is_token limit render emulate no_confirmation p.1 p.2 ++
            delay_block emulate delay).join ++
        ([.logInfo (r.log_pfx ++ ": calc value error, " ++ e)] ++ delay_block emulate delay) ++
        run_transfers is_token limit render emulate no_confirmation delay post) := by
  have htrace : transfer_route is_token limit render emulate no_confirmation r o =
      [.logInfo (r.log_pfx ++ ": calc value error, " ++ e)] := by
    simp [transfer_route, herr]
  refine ⟨htrace, ?_, ?_⟩
  · intro a b v
    rw [htrace]
    simp
  · intro pre post hpost
    have : pre ++ (r, o) :: post = (pre ++ [(r, o)]) ++ post := by simp
    rw [this, run_transfers_append is_token limit render emulate no_confirmation delay
      (pre ++ [(r, o)]) post hpost]
    simp [htrace]

/-- Witness for C4: a two-route batch whose first route fails value
resolution logs the error, submits nothing for it, and still runs the
second route. -/
theorem route_error_no_submit_batch_continues_witness :
    transfer_route false none (fun _ => "0.0") false false
      ⟨"A", "B", "1sol", "w1"⟩ ⟨.Err "balance down", .Err "x", false⟩ =
      [.logInfo ("w1" ++ ": calc value error, " ++ "balance down")] ∧
    (∀ a b v, Event.sendTx a b v ∉
      transfer_route false none (fun _ => "0.0") false false
        ⟨"A", "B", "1sol", "w1"⟩ ⟨.Err "balance down", .Err "x", false⟩) ∧
    (∀ pre post, post ≠ [] →
      run_transfers false none (fun _ => "0.0") false false none
          (pre ++ (⟨"A", "B", "1sol", "w1"⟩, ⟨.Err "balance down", .Err "x", false⟩) :: post) =
        (pre.map fun p =>
          transfer_route false none (fun _ => "0.0") false false p.1 p.2 ++
            delay_block false none).join ++
        ([.logInfo ("w1" ++ ": calc value error, " ++ "balance down")] ++ delay_block false none) ++
        run_transfers false none (fun _ => "0.0") false false none post) :=
  route_error_no_submit_batch_continues false none (fun _ => "0.0") false false none
    ⟨"A", "B", "1sol", "w1"⟩ ⟨.Err "balance down", .Err "x", false⟩ "balance down" rfl

/-- C7: with a configured delay and no emulation, a batch of `n` routes
sleeps exactly `n-1` times; the run of a non-final route is followed by the
delay log and the sleep before the next route's trace begins, and a final
(or only) route is followed by no delay at all. -/
theorem inter_route_delay_spec
    (is_token : Bool) (limit : Option Int) (render : Int → String)
    (no_confirmation : Bool) (dv : String)
    (routes : List (TransferRoute × RouteOracle)) :
    (run_transfers is_token limit render false no_confirmation (some dv) routes).count
      Event.sleepDelay = routes.length - 1 ∧
    (∀ x rest, rest ≠ [] →
      run_transfers is_token limit render false no_confirmation (some dv) (x :: rest) =
        transfer_route is_token limit render false no_confirmation x.1 x.2 ++
        [.logInfo ("delay " ++ dv ++ " seconds"), .sleepDelay] ++
        run_transfers is_token limit render false no_confirmation (some dv) rest) ∧
    (∀ x, run_transfers is_token limit render false no_confirmation (some dv) [x] =
      transfer_route is_token limit render false no_confirmation x.1 x.2) := by
  refine ⟨count_sleep_run_transfers is_token limit render no_confirmation dv routes, ?_, ?_⟩
  · intro x rest hrest
    obtain ⟨r, o⟩ := x
    rw [run_transfers]
    simp [hrest, delay_block]
  · intro x
    obtain ⟨r, o⟩ := x
    rw [run_transfers]
    simp [run_transfers]

/-- Witness for C7: a concrete two-route batch sleeps exactly once, between
the two routes. -/
theorem inter_route_delay_spec_witness :
    (run_transfers false none (fun _ => "0.0") false false (some "2")
      [(⟨"A", "B", "1sol", "w1"⟩, ⟨.Ok 7, .Ok "s1", true⟩),
       (⟨"C", "D", "1sol", "w2"⟩, ⟨.Ok 8, .Ok "s2", true⟩)]).count Event.sleepDelay = 1 ∧
    run_transfers false none (fun _ => "0.0") false false (some "2")
        ((⟨"A", "B", "1sol", "w1"⟩, ⟨.Ok 7, .Ok "s1", true⟩) ::
          [(⟨"C", "D", "1sol", "w2"⟩, ⟨.Ok 8, .Ok "s2", true⟩)]) =
      transfer_route false none (fun _ => "0.0") false false
        ⟨"A", "B", "1sol", "w1"⟩ ⟨.Ok 7, .Ok "s1", true⟩ ++
      [.logInfo ("delay " ++ "2" ++ " seconds"), .sleepDelay] ++
      run_transfers false none (fun _ => "0.0") false false (some "2")
        [(⟨"C", "D", "1sol", "w2"⟩, ⟨.Ok 8, .Ok "s2", true⟩)] := by
  have h := inter_route_delay_spec false none (fun _ => "0.0") false "2"
    [(⟨"A", "B", "1sol", "w1"⟩, ⟨.Ok 7, .Ok "s1", true⟩),
     (⟨"C", "D", "1sol", "w2"⟩, ⟨.Ok 8, .Ok "s2", true⟩)]
  exact ⟨by simpa using h.1, h.2.1 _ _ (List.cons_ne_nil _ _)⟩

/-- C8: a route that reaches successful submission ends with exactly one
terminal log line `"<pfx>: sig=<sig>, value=<amount><suffix>, status=<st>"`
where the suffix is `"t"` for token transfers and `"sol"` otherwise, and
the status is `"OK"` precisely when confirmation was requested and
succeeded, `"UNKNOWN"` otherwise (not requested, or polling timed out). -/
theorem terminal_log_line_format
    (is_token : Bool) (limit : Option Int) (render : Int → String)
    (no_confirmation : Bool) (r : TransferRoute) (o : RouteOracle) (v : Int) (sig : String)
    (hv : o.value_res = .Ok v) (hs : o.send_res = .Ok sig) :
    transfer_route is_token limit render false no_confirmation r o =
      (check_value_min_limit limit r.log_pfx v
        (value_with_suffix is_token render v)).1.map Event.logInfo ++
      [.sendTx r.from_address r.to_address v] ++
      (if no_confirmation then [] else [.waitConf sig]) ++
      [.logInfo (r.log_pfx ++ ": sig=" ++ sig ++ ", value=" ++
        value_with_suffix is_token render v ++ ", status=" ++
        (if !no_confirmation && o.confirmed then "OK" else "UNKNOWN"))] ∧
    value_with_suffix is_token render v =
      render v ++ (if is_token then "t" else "sol") ∧
    ((!no_confirmation && o.confirmed) = true ↔
      no_confirmation = false ∧ o.confirmed = true) := by
  refine ⟨?_, rfl, ?_⟩
  · simp only [transfer_route, hv, hs, check_value_min_limit_true]
    simp [List.append_assoc]
  · cases no_confirmation <;> cases h : o.confirmed <;> simp

/-- Witness for C8 at a concrete confirmed native transfer. -/
theorem terminal_log_line_format_witness :
    transfer_route false none (fun _ => "1.5") false false
      ⟨"A", "B", "1.5sol", "w1"⟩ ⟨.Ok 1500000000, .Ok "s1", true⟩ =
      (check_value_min_limit none "w1"
        (1500000000 : Int) (value_with_suffix false (fun _ => "1.5") 1500000000)).1.map
          Event.logInfo ++
      [.sendTx "A" "B" 1500000000] ++
      (if false then [] else [.waitConf "s1"]) ++
      [.logInfo ("w1" ++ ": sig=" ++ "s1" ++ ", value=" ++
        value_with_suffix false (fun _ => "1.5") 1500000000 ++ ", status=" ++
        (if !false && true then "OK" else "UNKNOWN"))] ∧
    value_with_suffix false (fun _ => "1.5") 1500000000 =
      (fun _ : Int => "1.5") 1500000000 ++ (if false then "t" else "sol") ∧
    ((!false && true) = true ↔ false = false ∧ true = true) :=
  terminal_log_line_format false none (fun _ => "1.5") false
    ⟨"A", "B", "1.5sol", "w1"⟩ ⟨.Ok 1500000000, .Ok "s1", true⟩ 1500000000 "s1" rfl rfl

/-- C9: when the private key does not derive `from_address`, `transfer_sol`
returns `Err("invalid_private_key")` with an empty action list: no RPC
client is created and no transaction is submitted. -/
theorem transfer_sol_invalid_key
    (pubkey_of : String → String) (net : Result String)
    (node from_address private_key to_address : String) (value : Dec)
    (proxy : Option String)
    (h : pubkey_of private_key ≠ from_address) :
    transfer_sol pubkey_of net node from_address private_key to_address value proxy =
      ([], .Err "invalid_private_key") := by
  have hc : check_private_key pubkey_of from_address private_key = false := by
    rw [check_private_key, beq_eq_false_iff_ne]
    exact h
  simp [transfer_sol, hc]

/-- Witness for C9: a key deriving address "X" offered for sender "Y". -/
theorem transfer_sol_invalid_key_witness :
    transfer_sol (fun _ => "X") (.Ok "sig") "node" "Y" "priv" "Z" ⟨1, 0⟩ none =
      ([], .Err "invalid_private_key") :=
  transfer_sol_invalid_key (fun _ => "X") (.Ok "sig") "node" "Y" "priv" "Z" ⟨1, 0⟩ none
    (by decide)

/-- C10: a missing associated token account — "could not find account"
reported either through an `InvalidParamsMessage` payload or an
`RPCException` — yields a successful balance of 0; every other RPC failure
yields an error result (and the function is total: every branch produces a
`DataResult`, nothing is re-raised). -/
theorem get_token_balance_missing_account_zero (msg : String)
    (h : str_contains msg could_not_find = true) :
    get_token_balance (.invalidParams msg) = .Ok 0 ∧
    get_token_balance (.rpcExc msg) = .Ok 0 ∧
    (∀ m, str_contains m could_not_find = false →
      get_token_balance (.rpcExc m) = .Err "error") ∧
    (∀ m, get_token_balance (.httpStatusError m) = .Err ("http error: " ++ m)) ∧
    (∀ m, get_token_balance (.solanaRpcExc m) = .Err m) ∧
    (∀ m, get_token_balance (.otherExc m) = .Err "exception") :=
  ⟨by simp [get_token_balance, h], by simp [get_token_balance, h],
    fun m hm => by simp [get_token_balance, hm],
    fun m => rfl, fun m => rfl, fun m => rfl⟩

/-- Witness for C10 at the RPC's literal error message. -/
theorem get_token_balance_missing_account_zero_witness :
    get_token_balance (.invalidParams "Invalid param: could not find account") = .Ok 0 ∧
    get_token_balance (.rpcExc "Invalid param: could not find account") = .Ok 0 ∧
    (∀ m, str_contains m could_not_find = false →
      get_token_balance (.rpcExc m) = .Err "error") ∧
    (∀ m, get_token_balance (.httpStatusError m) = .Err ("http error: " ++ m)) ∧
    (∀ m, get_token_balance (.solanaRpcExc m) = .Err m) ∧
    (∀ m, get_token_balance (.otherExc m) = .Err "exception") :=
  get_token_balance_missing_account_zero "Invalid param: could not find account" (by decide)

end MmSol

